import Mathlib

/-!
Verification of the `SharedPtrManager` registry from
`src/amplitude_shared_ptr_manager.{h,cpp}`.

Shallow embedding choices:
* A raw pointer (`void*` / `T*`) is a `Nat`; the value `0` stands for the
  null pointer.
* A `std::shared_ptr<T>` is identified by the address of its pointee
  (`ptr.get()`); `0` again stands for the null `shared_ptr`.  Reference
  counting has no observable effect on the registry's map, so only the
  pointee identity is modelled.
* A `std::type_index` is a `Nat` with decidable equality.
* The `std::unordered_map<void*, SharedPtrEntry> _storage` is an
  association list; `find` is `List.lookup`, `emplace` (only reached when
  the key is absent) is `cons`, `erase(it)` removes the entry that the
  preceding `find` located, `clear` is the empty list and `size` is
  `List.length`.
The mutex only serialises accesses and has no sequential content, so it is
not modelled.
-/

namespace SharedPtrManager

/-- Mirror of `struct SharedPtrEntry`: the type-erased shared pointer
(kept as the pointee's address) together with the captured
`std::type_index`. -/
structure SharedPtrEntry where
  ptr : Nat
  type : Nat
deriving DecidableEq, Repr

/-- Mirror of `std::unordered_map<void*, SharedPtrEntry> _storage`. -/
abbrev Storage := List (Nat × SharedPtrEntry)

/-- Mirror of `template<typename T> T* Store(std::shared_ptr<T> ptr)`.
Returns the updated storage together with the returned raw handle
(`0` encodes the `nullptr` return). -/
def Store (s : Storage) (ptr : Nat) (ty : Nat) : Storage × Nat :=
  if ptr = 0 then (s, 0)
  else
    match s.lookup ptr with
    | some e => if e.type = ty then (s, ptr) else (s, 0)
    | none => ((ptr, ⟨ptr, ty⟩) :: s, ptr)

/-- Mirror of `template<typename T> std::shared_ptr<T> Get(T* raw_ptr)`.
`none` encodes the null `shared_ptr` result; `some a` is a shared
pointer whose pointee address is `a`. -/
def Get (s : Storage) (raw : Nat) (ty : Nat) : Option Nat :=
  if raw = 0 then none
  else
    match s.lookup raw with
    | some e => if e.type = ty then some e.ptr else none
    | none => none

/-- Mirror of `template<typename T> bool Remove(T* raw_ptr)`: returns the
updated storage and the boolean result.  `erase(it)` removes the entry
the `find` call located, i.e. the first entry with this key. -/
def Remove (s : Storage) (raw : Nat) (ty : Nat) : Storage × Bool :=
  if raw = 0 then (s, false)
  else
    match s.lookup raw with
    | some e =>
        if e.type = ty then (s.eraseP (fun p => p.1 == raw), true)
        else (s, false)
    | none => (s, false)

/-- Mirror of `bool Contains(void* raw_ptr) const`. -/
def Contains (s : Storage) (raw : Nat) : Bool :=
  if raw = 0 then false else (s.lookup raw).isSome

/-- Mirror of `template<typename T> bool HasType(T* raw_ptr) const`. -/
def HasType (s : Storage) (raw : Nat) (ty : Nat) : Bool :=
  if raw = 0 then false
  else
    match s.lookup raw with
    | some e => e.type == ty
    | none => false

/-- Mirror of `void Clear()`. -/
def Clear (_s : Storage) : Storage := []

/-- Mirror of `size_t GetStoredCount() const`. -/
def GetStoredCount (s : Storage) : Nat := s.length

/-- Well-formedness of a registry state: every key is a non-null address,
every entry's stored pointer is the key it is filed under (which is how
`Store` creates entries: the key is `ptr.get()`), and keys are unique
(as in `std::unordered_map`).  These hold for every reachable state. -/
def WF (s : Storage) : Prop :=
  (∀ p ∈ s, p.1 ≠ 0 ∧ p.2.ptr = p.1) ∧ (s.map Prod.fst).Nodup

instance (s : Storage) : Decidable (WF s) := by
  unfold WF; infer_instance

/-- The registry operations that mutate the map, for reasoning about
sequences of calls.  `Get`, `HasType`, `Contains` and `GetStoredCount`
take the lock in shared mode and never modify `_storage`, so only the
three writers appear. -/
inductive Op where
  | store (ptr ty : Nat)
  | remove (raw ty : Nat)
  | clear
deriving DecidableEq, Repr

/-- The state reached after executing one operation. -/
def step (s : Storage) : Op → Storage
  | Op.store ptr ty => (Store s ptr ty).1
  | Op.remove raw ty => (Remove s raw ty).1
  | Op.clear => Clear s

/-- The state reached after a sequence of operations. -/
def run (s : Storage) : List Op → Storage
  | [] => s
  | op :: ops => run (step s op) ops

/-! Helper lemmas about the association-list map. -/

theorem mem_of_lookup_eq_some {s : Storage} {h : Nat} {e : SharedPtrEntry}
    (hl : s.lookup h = some e) : (h, e) ∈ s := by
  induction s with
  | nil => simp [List.lookup] at hl
  | cons p rest ih =>
      simp only [List.lookup] at hl
      by_cases hk : h = p.1
      · subst hk
        simp at hl
        subst hl
        exact List.mem_cons_self _ _
      · have : (h == p.1) = false := by simp [hk]
        rw [this] at hl
        exact List.mem_cons_of_mem _ (ih hl)

theorem not_mem_keys_of_lookup_eq_none {s : Storage} {h : Nat}
    (hl : s.lookup h = none) : h ∉ s.map Prod.fst := by
  induction s with
  | nil => simp
  | cons p rest ih =>
      simp only [List.lookup] at hl
      by_cases hk : h = p.1
      · subst hk; simp at hl
      · have : (h == p.1) = false := by simp [hk]
        rw [this] at hl
        simp [hk, ih hl]

theorem lookup_eq_none_of_not_mem_keys {s : Storage} {h : Nat}
    (hm : h ∉ s.map Prod.fst) : s.lookup h = none := by
  induction s with
  | nil => rfl
  | cons p rest ih =>
      simp only [List.map, List.mem_cons, not_or] at hm
      simp only [List.lookup]
      have : (h == p.1) = false := by simp [hm.1]
      rw [this]
      exact ih hm.2

theorem lookup_eraseP_ne (s : Storage) (k h : Nat) (hne : k ≠ h) :
    (s.eraseP (fun p => p.1 == k)).lookup h = s.lookup h := by
  induction s with
  | nil => rfl
  | cons p rest ih =>
      by_cases hk : p.1 = k
      · have hhk : (h == k) = false := by simp; omega
        simp only [List.eraseP, hk, beq_self_eq_true, cond_true, List.lookup, hhk]
      · have hbeq : (p.1 == k) = false := by simp [hk]
        simp only [List.eraseP, hbeq, cond_false]
        by_cases hh : h = p.1
        · simp only [List.lookup, hh, beq_self_eq_true]
        · have hhp : (h == p.1) = false := by simp [hh]
          simp only [List.lookup, hhp, ih]

theorem lookup_eraseP_self (s : Storage) (h : Nat)
    (hnd : (s.map Prod.fst).Nodup) :
    (s.eraseP (fun p => p.1 == h)).lookup h = none := by
  induction s with
  | nil => rfl
  | cons p rest ih =>
      simp only [List.map, List.nodup_cons] at hnd
      by_cases hk : p.1 = h
      · simp only [List.eraseP, hk, beq_self_eq_true, cond_true]
        apply lookup_eq_none_of_not_mem_keys
        rw [← hk]
        exact hnd.1
      · have hbeq : (p.1 == h) = false := by simp [hk]
        have hhp : (h == p.1) = false := by simp; omega
        simp only [List.eraseP, hbeq, cond_false, List.lookup, hhp]
        exact ih hnd.2

theorem get_of_lookup_none {s : Storage} {h : Nat} (ty : Nat)
    (hl : s.lookup h = none) : Get s h ty = none := by
  unfold Get
  split
  · rfl
  · rw [hl]

theorem hasType_of_lookup_none {s : Storage} {h : Nat} (ty : Nat)
    (hl : s.lookup h = none) : HasType s h ty = false := by
  unfold HasType
  split
  · rfl
  · rw [hl]

theorem remove_of_lookup_none {s : Storage} {h : Nat} (ty : Nat)
    (hl : s.lookup h = none) : Remove s h ty = (s, false) := by
  unfold Remove
  split
  · rfl
  · rw [hl]

theorem wf_empty : WF ([] : Storage) := by
  constructor
  · intro p hp
    simp at hp
  · simp

theorem wf_store {s : Storage} (ptr ty : Nat) (hwf : WF s) :
    WF (Store s ptr ty).1 := by
  unfold Store
  by_cases h0 : ptr = 0
  · simpa [h0] using hwf
  · cases heq : s.lookup ptr with
    | some e =>
        by_cases ht : e.type = ty <;> simp only [h0, if_false, heq, ht, if_true] <;>
          simpa using hwf
    | none =>
        simp only [h0, if_false, heq]
        constructor
        · intro p hp
          rcases List.mem_cons.mp hp with hp | hp
          · subst hp
            exact ⟨h0, rfl⟩
          · exact hwf.1 p hp
        · simp only [List.map, List.nodup_cons]
          exact ⟨not_mem_keys_of_lookup_eq_none heq, hwf.2⟩

theorem wf_remove {s : Storage} (raw ty : Nat) (hwf : WF s) :
    WF (Remove s raw ty).1 := by
  unfold Remove
  by_cases h0 : raw = 0
  · simpa [h0] using hwf
  · cases heq : s.lookup raw with
    | some e =>
        by_cases ht : e.type = ty
        · have hsub : List.Sublist (s.eraseP (fun p => p.1 == raw)) s :=
            List.eraseP_sublist s
          simp only [h0, if_false, heq, ht, if_true]
          exact ⟨fun p hp => hwf.1 p (hsub.subset hp),
            List.Nodup.sublist (hsub.map Prod.fst) hwf.2⟩
        · simp only [h0, if_false, heq, ht]
          simpa using hwf
    | none =>
        simp only [h0, if_false, heq]
        simpa using hwf

theorem wf_clear (s : Storage) : WF (Clear s) := wf_empty

theorem wf_step {s : Storage} (op : Op) (hwf : WF s) : WF (step s op) := by
  cases op with
  | store ptr ty => exact wf_store ptr ty hwf
  | remove raw ty => exact wf_remove raw ty hwf
  | clear => exact wf_clear s

theorem wf_run {s : Storage} (ops : List Op) (hwf : WF s) : WF (run s ops) := by
  induction ops generalizing s with
  | nil => exact hwf
  | cons op ops ih => exact ih (wf_step op hwf)

/-! Claim theorems. -/

/-- Claim C8: null handles are treated as not-found: for every registry state
and every type tag, `Get(nullptr, T)` returns null, `Remove(nullptr, T)`
returns false with the registry unchanged, `HasType(nullptr, T)` returns
false, and `Contains(nullptr)` returns false. -/
theorem null_handle_not_found (s : Storage) (ty : Nat) :
    Get s 0 ty = none ∧ Remove s 0 ty = (s, false) ∧
      HasType s 0 ty = false ∧ Contains s 0 = false := by
  refine ⟨?_, ?_, ?_, ?_⟩ <;> simp [Get, Remove, HasType, Contains]

/-- Claim C9: storing a null shared pointer is a graceful no-op: `Store`
returns a null handle and leaves the registry mapping completely
unchanged. -/
theorem store_null_noop (s : Storage) (ty : Nat) : Store s 0 ty = (s, 0) := by
  simp [Store]

/-- Claim C6: `Clear` empties the registry and is idempotent: afterwards the
count is zero, every handle yields the not-found result from `Get`,
`HasType`, `Contains` and `Remove`, and a further `Clear` leaves the
registry empty. -/
theorem clear_empties_registry (s : Storage) (h ty : Nat) :
    GetStoredCount (Clear s) = 0 ∧ Get (Clear s) h ty = none ∧
      HasType (Clear s) h ty = false ∧ Contains (Clear s) h = false ∧
      Remove (Clear s) h ty = (Clear s, false) ∧ Clear (Clear s) = Clear s := by
  refine ⟨rfl, ?_, ?_, ?_, ?_, rfl⟩
  · exact get_of_lookup_none ty rfl
  · exact hasType_of_lookup_none ty rfl
  · simp [Contains, Clear, List.lookup]
  · exact remove_of_lookup_none ty rfl

/-- Claim C4: `Store` on a type conflict fails closed: if an identity is
already mapped under type tag `ty`, a `Store` call for the same identity
with a different type tag `u` returns a null handle and leaves the
registry (in particular the existing entry) exactly as before. -/
theorem store_type_conflict_fails_closed (s : Storage) (h ty u : Nat)
    (e : SharedPtrEntry) (hl : s.lookup h = some e) (ht : e.type = ty)
    (hu : u ≠ ty) : Store s h u = (s, 0) := by
  have hne : ¬ e.type = u := by
    rw [ht]
    exact fun hc => hu hc.symm
  unfold Store
  by_cases h0 : h = 0
  · simp [h0]
  · simp [h0, hl, hne]

theorem store_type_conflict_fails_closed_witness :
    (([(5, ⟨5, 1⟩)] : Storage).lookup 5 = some ⟨5, 1⟩) ∧
      (SharedPtrEntry.mk 5 1).type = 1 ∧ (2 : Nat) ≠ 1 ∧
      Store ([(5, ⟨5, 1⟩)] : Storage) 5 2 = ([(5, ⟨5, 1⟩)], 0) :=
  ⟨by decide, by decide, by decide,
    store_type_conflict_fails_closed [(5, ⟨5, 1⟩)] 5 1 2 ⟨5, 1⟩
      (by decide) (by decide) (by decide)⟩

theorem store_handle_eq {s : Storage} {ptr ty : Nat}
    (hsucc : (Store s ptr ty).2 ≠ 0) : (Store s ptr ty).2 = ptr := by
  unfold Store at *
  by_cases h0 : ptr = 0
  · simp [h0]
  · cases heq : s.lookup ptr with
    | some e =>
        by_cases ht : e.type = ty
        · simp [h0, heq, ht]
        · rw [if_neg h0, heq] at hsucc
          simp [ht] at hsucc
    | none => simp [h0, heq]

theorem get_after_store {s : Storage} (ptr ty : Nat) (hwf : WF s)
    (hptr : ptr ≠ 0) (hsucc : (Store s ptr ty).2 ≠ 0) :
    Get (Store s ptr ty).1 ptr ty = some ptr := by
  cases heq : s.lookup ptr with
  | none => simp [Store, Get, heq, hptr, List.lookup]
  | some e =>
      by_cases ht : e.type = ty
      · have hmem := mem_of_lookup_eq_some heq
        have hptr_eq : e.ptr = ptr := (hwf.1 _ hmem).2
        simp [Store, Get, heq, hptr, ht, hptr_eq]
      · exfalso
        apply hsucc
        simp [Store, heq, hptr, ht]

/-- Claim C1: Store/Get round-trip: after a successful `Store` of a
non-null shared pointer to an object at address `ptr` under type tag
`ty`, an immediately following `Get` on the returned handle with the
same tag yields a shared pointer to the very same underlying object
(the identity `ptr`). -/
theorem store_get_roundtrip (s : Storage) (ptr ty : Nat) (hwf : WF s)
    (hptr : ptr ≠ 0) (hsucc : (Store s ptr ty).2 ≠ 0) :
    Get (Store s ptr ty).1 (Store s ptr ty).2 ty = some ptr := by
  rw [store_handle_eq hsucc]
  exact get_after_store ptr ty hwf hptr hsucc

theorem store_get_roundtrip_witness :
    WF ([] : Storage) ∧ (5 : Nat) ≠ 0 ∧ (Store ([] : Storage) 5 1).2 ≠ 0 ∧
      Get (Store ([] : Storage) 5 1).1 (Store ([] : Storage) 5 1).2 1 =
        some 5 :=
  ⟨by simp [WF], by decide, by decide,
    store_get_roundtrip [] 5 1 (by simp [WF]) (by decide) (by decide)⟩

/-- Claim C2: type safety of lookups: when the identity `h` is mapped to
an entry with type tag `ty`, lookups with any other tag `u` fail
(`Get` returns null, `HasType` returns false), while lookups with `ty`
succeed. -/
theorem lookup_type_safety (s : Storage) (h ty u : Nat) (e : SharedPtrEntry)
    (hh : h ≠ 0) (hl : s.lookup h = some e) (ht : e.type = ty)
    (hu : u ≠ ty) :
    Get s h u = none ∧ HasType s h u = false ∧
      Get s h ty = some e.ptr ∧ HasType s h ty = true := by
  have hne : ¬ e.type = u := by
    rw [ht]
    exact fun hc => hu hc.symm
  have hne2 : ¬ ty = u := fun hc => hu hc.symm
  refine ⟨?_, ?_, ?_, ?_⟩ <;> simp [Get, HasType, hh, hl, hne, hne2, ht]

theorem lookup_type_safety_witness :
    (5 : Nat) ≠ 0 ∧ (([(5, ⟨5, 1⟩)] : Storage).lookup 5 = some ⟨5, 1⟩) ∧
      (SharedPtrEntry.mk 5 1).type = 1 ∧ (2 : Nat) ≠ 1 ∧
      (Get ([(5, ⟨5, 1⟩)] : Storage) 5 2 = none ∧
        HasType ([(5, ⟨5, 1⟩)] : Storage) 5 2 = false ∧
        Get ([(5, ⟨5, 1⟩)] : Storage) 5 1 = some (SharedPtrEntry.mk 5 1).ptr ∧
        HasType ([(5, ⟨5, 1⟩)] : Storage) 5 1 = true) :=
  ⟨by decide, by decide, by decide, by decide,
    lookup_type_safety [(5, ⟨5, 1⟩)] 5 1 2 ⟨5, 1⟩ (by decide) (by decide)
      (by decide) (by decide)⟩

/-- Claim C3: idempotent `Store`: storing the same non-null object twice
under the same type tag returns the same handle both times and the entry
count after the second call equals the count after the first; when the
object was not yet mapped, exactly one entry is created by the pair of
calls. -/
theorem store_idempotent (s : Storage) (ptr ty : Nat) (hptr : ptr ≠ 0) :
    (Store (Store s ptr ty).1 ptr ty).2 = (Store s ptr ty).2 ∧
      GetStoredCount (Store (Store s ptr ty).1 ptr ty).1 =
        GetStoredCount (Store s ptr ty).1 ∧
      (s.lookup ptr = none →
        (Store s ptr ty).2 = ptr ∧
          GetStoredCount (Store s ptr ty).1 = GetStoredCount s + 1) := by
  cases heq : s.lookup ptr with
  | none =>
      have h1 : Store s ptr ty = ((ptr, ⟨ptr, ty⟩) :: s, ptr) := by
        simp [Store, hptr, heq]
      rw [h1]
      simp [Store, hptr, List.lookup, GetStoredCount]
  | some e =>
      by_cases ht : e.type = ty
      · simp [Store, hptr, heq, ht, GetStoredCount]
      · simp [Store, hptr, heq, ht, GetStoredCount]

theorem store_idempotent_witness :
    (5 : Nat) ≠ 0 ∧
      ((Store (Store ([] : Storage) 5 1).1 5 1).2 = (Store ([] : Storage) 5 1).2 ∧
        GetStoredCount (Store (Store ([] : Storage) 5 1).1 5 1).1 =
          GetStoredCount (Store ([] : Storage) 5 1).1 ∧
        (([] : Storage).lookup 5 = none →
          (Store ([] : Storage) 5 1).2 = 5 ∧
            GetStoredCount (Store ([] : Storage) 5 1).1 =
              GetStoredCount ([] : Storage) + 1)) :=
  ⟨by decide, store_idempotent [] 5 1 (by decide)⟩

/-- Claim C5: `Remove` returns true exactly when the handle is mapped
with a matching type tag; on success the identity is erased, so `Get`,
`HasType` and a second `Remove` all report absent afterwards; on failure
the registry is unchanged. -/
theorem remove_iff_mapped (s : Storage) (h ty : Nat) (hwf : WF s) :
    ((Remove s h ty).2 = true ↔ ∃ e, s.lookup h = some e ∧ e.type = ty) ∧
      ((Remove s h ty).2 = true →
        (Remove s h ty).1.lookup h = none ∧
          Get (Remove s h ty).1 h ty = none ∧
          HasType (Remove s h ty).1 h ty = false ∧
          Remove (Remove s h ty).1 h ty = ((Remove s h ty).1, false)) ∧
      ((Remove s h ty).2 = false → (Remove s h ty).1 = s) := by
  by_cases h0 : h = 0
  · have hR : Remove s h ty = (s, false) := by simp [Remove, h0]
    rw [hR]
    refine ⟨⟨?_, ?_⟩, ?_, ?_⟩
    · intro hc
      simp at hc
    · rintro ⟨e, hl, -⟩
      exact ((hwf.1 _ (mem_of_lookup_eq_some hl)).1 h0).elim
    · intro hc
      simp at hc
    · intro _
      rfl
  · cases heq : s.lookup h with
    | none =>
        have hR : Remove s h ty = (s, false) := remove_of_lookup_none ty heq
        rw [hR]
        refine ⟨⟨?_, ?_⟩, ?_, ?_⟩
        · intro hc
          simp at hc
        · rintro ⟨e, hl, -⟩
          simp at hl
        · intro hc
          simp at hc
        · intro _
          rfl
    | some e =>
        by_cases ht : e.type = ty
        · have hR : Remove s h ty = (s.eraseP (fun p => p.1 == h), true) := by
            simp [Remove, h0, heq, ht]
          rw [hR]
          have hln : (s.eraseP (fun p => p.1 == h)).lookup h = none :=
            lookup_eraseP_self s h hwf.2
          refine ⟨⟨fun _ => ⟨e, rfl, ht⟩, fun _ => rfl⟩, ?_, ?_⟩
          · intro _
            exact ⟨hln, get_of_lookup_none ty hln, hasType_of_lookup_none ty hln,
              remove_of_lookup_none ty hln⟩
          · intro hc
            simp at hc
        · have hR : Remove s h ty = (s, false) := by
            simp [Remove, h0, heq, ht]
          rw [hR]
          refine ⟨⟨?_, ?_⟩, ?_, ?_⟩
          · intro hc
            simp at hc
          · rintro ⟨e2, hl, ht2⟩
            injection hl with he
            subst he
            exact (ht ht2).elim
          · intro hc
            simp at hc
          · intro _
            rfl

theorem remove_iff_mapped_witness :
    WF ([(5, ⟨5, 1⟩)] : Storage) ∧
      (((Remove ([(5, ⟨5, 1⟩)] : Storage) 5 1).2 = true ↔
          ∃ e, ([(5, ⟨5, 1⟩)] : Storage).lookup 5 = some e ∧ e.type = 1) ∧
        ((Remove ([(5, ⟨5, 1⟩)] : Storage) 5 1).2 = true →
          (Remove ([(5, ⟨5, 1⟩)] : Storage) 5 1).1.lookup 5 = none ∧
            Get (Remove ([(5, ⟨5, 1⟩)] : Storage) 5 1).1 5 1 = none ∧
            HasType (Remove ([(5, ⟨5, 1⟩)] : Storage) 5 1).1 5 1 = false ∧
            Remove (Remove ([(5, ⟨5, 1⟩)] : Storage) 5 1).1 5 1 =
              ((Remove ([(5, ⟨5, 1⟩)] : Storage) 5 1).1, false)) ∧
        ((Remove ([(5, ⟨5, 1⟩)] : Storage) 5 1).2 = false →
          (Remove ([(5, ⟨5, 1⟩)] : Storage) 5 1).1 = [(5, ⟨5, 1⟩)])) :=
  ⟨by simp [WF], remove_iff_mapped [(5, ⟨5, 1⟩)] 5 1 (by simp [WF])⟩

/-- Claim C10: `Contains` is type-agnostic, unlike `HasType`: it is true
exactly when the handle is a key of the map, and for a mapped entry it
returns true while `HasType` succeeds only for the entry's own tag and
fails for every other tag. -/
theorem contains_type_agnostic (s : Storage) (h : Nat) (hwf : WF s) :
    (Contains s h = true ↔ ∃ e, s.lookup h = some e) ∧
      ∀ e, s.lookup h = some e →
        Contains s h = true ∧ HasType s h e.type = true ∧
          ∀ u, u ≠ e.type → HasType s h u = false := by
  by_cases h0 : h = 0
  · refine ⟨⟨?_, ?_⟩, ?_⟩
    · intro hc
      simp [Contains, h0] at hc
    · rintro ⟨e, hl⟩
      exact ((hwf.1 _ (mem_of_lookup_eq_some hl)).1 h0).elim
    · intro e hl
      exact ((hwf.1 _ (mem_of_lookup_eq_some hl)).1 h0).elim
  · refine ⟨?_, ?_⟩
    · simp [Contains, h0, Option.isSome_iff_exists]
    · intro e hl
      refine ⟨?_, ?_, ?_⟩
      · simp [Contains, h0, hl]
      · simp [HasType, h0, hl]
      · intro u hu
        have hne : ¬ e.type = u := fun hc => hu hc.symm
        simp [HasType, h0, hl, hne]

theorem contains_type_agnostic_witness :
    WF ([(5, ⟨5, 1⟩)] : Storage) ∧
      ((Contains ([(5, ⟨5, 1⟩)] : Storage) 5 = true ↔
          ∃ e, ([(5, ⟨5, 1⟩)] : Storage).lookup 5 = some e) ∧
        ∀ e, ([(5, ⟨5, 1⟩)] : Storage).lookup 5 = some e →
          Contains ([(5, ⟨5, 1⟩)] : Storage) 5 = true ∧
            HasType ([(5, ⟨5, 1⟩)] : Storage) 5 e.type = true ∧
            ∀ u, u ≠ e.type → HasType ([(5, ⟨5, 1⟩)] : Storage) 5 u = false) :=
  ⟨by simp [WF], contains_type_agnostic [(5, ⟨5, 1⟩)] 5 (by simp [WF])⟩

theorem get_gives_entry {s : Storage} {h ty v : Nat}
    (hget : Get s h ty = some v) :
    h ≠ 0 ∧ ∃ e, s.lookup h = some e ∧ e.type = ty ∧ e.ptr = v := by
  have h0 : h ≠ 0 := by
    intro hc
    subst hc
    simp [Get] at hget
  refine ⟨h0, ?_⟩
  unfold Get at hget
  rw [if_neg h0] at hget
  cases hl : s.lookup h with
  | none =>
      rw [hl] at hget
      simp at hget
  | some e =>
      rw [hl] at hget
      by_cases ht : e.type = ty
      · simp only [ht, if_true] at hget
        injection hget with hv
        exact ⟨e, rfl, ht, hv⟩
      · simp [ht] at hget

theorem get_preserved_step {s : Storage} {h ty v : Nat} (op : Op)
    (hget : Get s h ty = some v) (hop : op ≠ Op.remove h ty)
    (hcl : op ≠ Op.clear) : Get (step s op) h ty = some v := by
  obtain ⟨h0, e, hl, hty, hv⟩ := get_gives_entry hget
  cases op with
  | clear => exact (hcl rfl).elim
  | store p t =>
      by_cases hp0 : p = 0
      · simpa [step, Store, hp0] using hget
      · cases hlp : s.lookup p with
        | some ep =>
            by_cases htp : ep.type = t <;>
              simpa [step, Store, hp0, hlp, htp] using hget
        | none =>
            have hne : h ≠ p := by
              intro hc
              rw [hc, hlp] at hl
              cases hl
            have hstep : step s (Op.store p t) = (p, ⟨p, t⟩) :: s := by
              simp [step, Store, hp0, hlp]
            rw [hstep]
            have hbeq : (h == p) = false := by simp [hne]
            simp only [Get, if_neg h0, List.lookup, hbeq, hl, hty, if_true, hv]
  | remove r t =>
      by_cases hr0 : r = 0
      · simpa [step, Remove, hr0] using hget
      · cases hlr : s.lookup r with
        | none =>
            have hR := remove_of_lookup_none (s := s) (h := r) t hlr
            simp only [step, hR]
            exact hget
        | some er =>
            by_cases htr : er.type = t
            · have hne : r ≠ h := by
                intro hc
                subst hc
                rw [hl] at hlr
                injection hlr with he
                apply hop
                rw [← htr, ← he, hty]
              have hstep : step s (Op.remove r t) =
                  s.eraseP (fun p => p.1 == r) := by
                simp [step, Remove, hr0, hlr, htr]
              rw [hstep]
              simp only [Get, if_neg h0, lookup_eraseP_ne s r h hne, hl, hty,
                if_true, hv]
            · have hstep : step s (Op.remove r t) = s := by
                simp [step, Remove, hr0, hlr, htr]
              rw [hstep]
              exact hget

theorem get_preserved_run {s : Storage} {h ty v : Nat} {ops : List Op}
    (hget : Get s h ty = some v) (hnorem : Op.remove h ty ∉ ops)
    (hnoclear : Op.clear ∉ ops) : Get (run s ops) h ty = some v := by
  induction ops generalizing s with
  | nil => exact hget
  | cons op rest ih =>
      simp only [List.mem_cons, not_or] at hnorem hnoclear
      exact ih
        (get_preserved_step op hget (fun hc => hnorem.1 hc.symm)
          (fun hc => hnoclear.1 hc.symm))
        hnorem.2 hnoclear.2

/-- Claim C7 as stated is refuted: `Clear` is a registry operation that
is not `Remove(h, T)`, yet it invalidates the handle.  Concretely, after
a successful `Store`, running the sequence `[clear]` — which contains no
`remove 5 1` — makes `Get` on the stored handle return null. -/
theorem store_persistence_counterexample :
    (Store ([] : Storage) 5 1).2 = 5 ∧
      Get (Store ([] : Storage) 5 1).1 5 1 = some 5 ∧
      Op.remove 5 1 ∉ [Op.clear] ∧
      Get (run (Store ([] : Storage) 5 1).1 [Op.clear]) 5 1 = none := by
  decide

/-- Claim C7 (amended): after a successful `Store(O, T)` returning
handle `h`, for every subsequent sequence of registry operations that
contains no `Remove(h, T)` and no `Clear`, `Get(h, T)` still succeeds
and returns a reference to `O`. -/
theorem store_persistence_amended (s : Storage) (ptr ty : Nat)
    (ops : List Op) (hwf : WF s) (hptr : ptr ≠ 0)
    (hsucc : (Store s ptr ty).2 ≠ 0) (hnorem : Op.remove ptr ty ∉ ops)
    (hnoclear : Op.clear ∉ ops) :
    Get (run (Store s ptr ty).1 ops) ptr ty = some ptr :=
  get_preserved_run (get_after_store ptr ty hwf hptr hsucc) hnorem hnoclear

theorem store_persistence_amended_witness :
    WF ([] : Storage) ∧ (5 : Nat) ≠ 0 ∧ (Store ([] : Storage) 5 1).2 ≠ 0 ∧
      Op.remove 5 1 ∉ [Op.store 7 2, Op.remove 5 2, Op.remove 7 2] ∧
      Op.clear ∉ [Op.store 7 2, Op.remove 5 2, Op.remove 7 2] ∧
      Get (run (Store ([] : Storage) 5 1).1
        [Op.store 7 2, Op.remove 5 2, Op.remove 7 2]) 5 1 = some 5 :=
  ⟨by simp [WF], by decide, by decide, by decide, by decide,
    store_persistence_amended [] 5 1 [Op.store 7 2, Op.remove 5 2, Op.remove 7 2]
      (by simp [WF]) (by decide) (by decide) (by decide) (by decide)⟩

end SharedPtrManager
